import Mathlib

/-!
# xKube Credential & Session Core — verification development

Shallow embedding of the xKube frontend Redux state slices
(`src/frontend/src/store/slices/clusterSlice.ts`,
`src/frontend/src/store/slices/authSlice.ts`,
`src/frontend/src/features/clusters/AddClusterModal.tsx`) together with
spec-modelled definitions of the backend Cluster Registry, Token Service
and Secret Cipher (the backend modules are not part of the frontend
sources; they are modelled from the specification, as marked on each
definition).

Redux reducers are embedded as pure functions from state and action
payload to state; the in-place mutations of the TypeScript reducers
become functional updates.
-/

namespace XKube

/-- The `Cluster` record of the frontend API client
(`src/unnamed/part_002`, `interface Cluster`). -/
structure Cluster where
  id : String
  name : String
  description : Option String
  context : String
  is_active : Bool
  is_connected : Bool
  version : Option String
  node_count : Nat
  pod_count : Nat
  tags : List String
  owner_id : String
  created_at : String
  updated_at : String
  last_connected_at : Option String
deriving DecidableEq, Repr

/-- `ConnectionTestResult` of the frontend API client (`src/unnamed/part_002`). -/
structure ConnectionTestResult where
  connected : Bool
  version : Option String
  error : Option String
deriving DecidableEq, Repr

/-- `ClusterState` of `clusterSlice.ts`. -/
structure ClusterState where
  clusters : List Cluster
  activeCluster : Option Cluster
  loading : Bool
  error : Option String
deriving DecidableEq, Repr

/-- `initialState` of `clusterSlice.ts`. -/
def initialClusterState : ClusterState :=
  { clusters := [], activeCluster := none, loading := false, error := none }

/-- `createCluster.fulfilled` reducer of `clusterSlice.ts`:
`state.loading = false; state.clusters.push(action.payload)`. -/
def createFulfilled (s : ClusterState) (payload : Cluster) : ClusterState :=
  { s with loading := false, clusters := s.clusters ++ [payload] }

/-- `createCluster.rejected` reducer of `clusterSlice.ts`:
`state.loading = false; state.error = message`. -/
def createRejected (s : ClusterState) (msg : String) : ClusterState :=
  { s with loading := false, error := some msg }

/-- `deleteCluster.fulfilled` reducer of `clusterSlice.ts`:
filters out the deleted id and nulls `activeCluster` when it was the
deleted cluster. -/
def deleteFulfilled (s : ClusterState) (id : String) : ClusterState :=
  { s with
    clusters := s.clusters.filter (fun c => ¬ (c.id = id)),
    activeCluster :=
      match s.activeCluster with
      | some a => if a.id = id then none else some a
      | none => none }

/-- The in-place mutation of the first matching element performed by
`state.clusters.find(...)` followed by field assignments in
`testConnection.fulfilled`: only the first element satisfying `p` is
replaced by its image under `f`. -/
def updateFirstBy (p : Cluster → Bool) (f : Cluster → Cluster) :
    List Cluster → List Cluster
  | [] => []
  | c :: cs => if p c then f c :: cs else c :: updateFirstBy p f cs

/-- The field assignments of `testConnection.fulfilled`:
`cluster.is_connected = result.connected; if (result.version)
cluster.version = result.version` — note the JavaScript truthiness test,
under which an empty-string version is not written. -/
def applyTestResult (r : ConnectionTestResult) (c : Cluster) : Cluster :=
  { c with
    is_connected := r.connected,
    version :=
      match r.version with
      | some v => if v = "" then c.version else some v
      | none => c.version }

/-- `testConnection.fulfilled` reducer of `clusterSlice.ts`. -/
def testConnFulfilled (s : ClusterState) (id : String)
    (r : ConnectionTestResult) : ClusterState :=
  { s with clusters := updateFirstBy (fun c => c.id == id) (applyTestResult r) s.clusters }

/-- The `forEach` loop of `activateCluster.fulfilled`:
`c.is_active = false` on every stored cluster. -/
def clearActive (c : Cluster) : Cluster := { c with is_active := false }

/-- `state.clusters.findIndex(c => c.id === payload.id)` followed by
`state.clusters[index] = payload`: replaces the first element whose id
matches the payload's, `none` when no element matches. -/
def setFirstById (payload : Cluster) : List Cluster → Option (List Cluster)
  | [] => none
  | c :: cs =>
    if c.id == payload.id then some (payload :: cs)
    else
      match setFirstById payload cs with
      | some cs' => some (c :: cs')
      | none => none

/-- `activateCluster.fulfilled` reducer of `clusterSlice.ts`: deactivate
every stored cluster, then replace the entry whose id matches the payload
(setting `activeCluster` to the payload) when such an entry exists. -/
def activateFulfilled (s : ClusterState) (payload : Cluster) : ClusterState :=
  let cleared := s.clusters.map clearActive
  match setFirstById payload cleared with
  | some cs' => { s with clusters := cs', activeCluster := some payload }
  | none => { s with clusters := cleared }

/-- Number of stored clusters with `is_active = true`. -/
def countActive (cs : List Cluster) : Nat :=
  (cs.filter (fun c => c.is_active)).length

/-- The fulfilled actions of C1's action sequence: `createCluster`,
`activateCluster`, `deleteCluster`. -/
inductive ClusterAction where
  | createF (payload : Cluster)
  | activateF (payload : Cluster)
  | deleteF (id : String)
deriving DecidableEq, Repr

/-- Dispatch one fulfilled action through the corresponding reducer. -/
def applyClusterAction (s : ClusterState) : ClusterAction → ClusterState
  | .createF p => createFulfilled s p
  | .activateF p => activateFulfilled s p
  | .deleteF id => deleteFulfilled s id

/-- Dispatch a sequence of fulfilled actions in order. -/
def applyClusterActions (s : ClusterState) (as : List ClusterAction) : ClusterState :=
  as.foldl applyClusterAction s

/-- A `createCluster.fulfilled` payload as the backend produces it: freshly
created clusters are inactive (spec §8 Scenario A). Other actions are
unconstrained. -/
def createPayloadInactive : ClusterAction → Bool
  | .createF p => p.is_active = false
  | _ => true

/-! ## Auth slice (`src/frontend/src/store/slices/authSlice.ts`) -/

/-- The `User` record of `authSlice.ts`. -/
structure User where
  id : String
  email : String
  name : String
  avatar_url : Option String
  auth_provider : String
  is_verified : Bool
  created_at : String
deriving DecidableEq, Repr

/-- `TokenResponse` of `authSlice.ts`. -/
structure TokenResponse where
  access_token : String
  refresh_token : String
deriving DecidableEq, Repr

/-- `AuthState` of `authSlice.ts`. The `localStorage` writes performed by
the reducers are outside the Redux state and are not modelled. -/
structure AuthState where
  user : Option User
  accessToken : Option String
  refreshToken : Option String
  isLoading : Bool
  error : Option String
deriving DecidableEq, Repr

/-- `setTokens` reducer of `authSlice.ts`. -/
def setTokens (s : AuthState) (a r : String) : AuthState :=
  { s with accessToken := some a, refreshToken := some r }

/-- `clearError` reducer of `authSlice.ts`. -/
def clearAuthError (s : AuthState) : AuthState := { s with error := none }

/-- `login.pending` reducer. -/
def loginPending (s : AuthState) : AuthState :=
  { s with isLoading := true, error := none }

/-- `login.fulfilled` reducer: stores both tokens of the response. -/
def loginFulfilled (s : AuthState) (p : TokenResponse) : AuthState :=
  { s with isLoading := false,
           accessToken := some p.access_token,
           refreshToken := some p.refresh_token }

/-- `login.rejected` reducer. -/
def loginRejected (s : AuthState) (msg : String) : AuthState :=
  { s with isLoading := false, error := some msg }

/-- `register.pending` reducer. -/
def registerPending (s : AuthState) : AuthState :=
  { s with isLoading := true, error := none }

/-- `register.fulfilled` reducer: stores both tokens of the response. -/
def registerFulfilled (s : AuthState) (p : TokenResponse) : AuthState :=
  { s with isLoading := false,
           accessToken := some p.access_token,
           refreshToken := some p.refresh_token }

/-- `register.rejected` reducer. -/
def registerRejected (s : AuthState) (msg : String) : AuthState :=
  { s with isLoading := false, error := some msg }

/-- `fetchCurrentUser.pending` reducer. -/
def fetchUserPending (s : AuthState) : AuthState := { s with isLoading := true }

/-- `fetchCurrentUser.fulfilled` reducer. -/
def fetchUserFulfilled (s : AuthState) (u : User) : AuthState :=
  { s with isLoading := false, user := some u }

/-- `fetchCurrentUser.rejected` reducer: clears both tokens. -/
def fetchUserRejected (s : AuthState) : AuthState :=
  { s with isLoading := false, accessToken := none, refreshToken := none }

/-- `refreshAccessToken.fulfilled` reducer: stores both tokens. -/
def refreshFulfilled (s : AuthState) (p : TokenResponse) : AuthState :=
  { s with accessToken := some p.access_token,
           refreshToken := some p.refresh_token }

/-- `refreshAccessToken.rejected` reducer: clears both tokens and the
user, forcing a fresh login. -/
def refreshRejected (s : AuthState) : AuthState :=
  { s with accessToken := none, refreshToken := none, user := none }

/-- `logout.fulfilled` reducer: clears user and both tokens. -/
def logoutFulfilled (s : AuthState) : AuthState :=
  { s with user := none, accessToken := none, refreshToken := none }

/-- Every action handled by `authSlice.ts`. -/
inductive AuthAction where
  | setTokensA (a r : String)
  | clearErrorA
  | loginP
  | loginF (p : TokenResponse)
  | loginR (msg : String)
  | registerP
  | registerF (p : TokenResponse)
  | registerR (msg : String)
  | fetchUserP
  | fetchUserF (u : User)
  | fetchUserR
  | refreshF (p : TokenResponse)
  | refreshR
  | logoutF
deriving DecidableEq, Repr

/-- Dispatch one auth action through the corresponding reducer. -/
def applyAuthAction (s : AuthState) : AuthAction → AuthState
  | .setTokensA a r => setTokens s a r
  | .clearErrorA => clearAuthError s
  | .loginP => loginPending s
  | .loginF p => loginFulfilled s p
  | .loginR m => loginRejected s m
  | .registerP => registerPending s
  | .registerF p => registerFulfilled s p
  | .registerR m => registerRejected s m
  | .fetchUserP => fetchUserPending s
  | .fetchUserF u => fetchUserFulfilled s u
  | .fetchUserR => fetchUserRejected s
  | .refreshF p => refreshFulfilled s p
  | .refreshR => refreshRejected s
  | .logoutF => logoutFulfilled s

/-- Both tokens present, or both absent. -/
def tokensPaired (s : AuthState) : Prop :=
  (s.accessToken = none ∧ s.refreshToken = none) ∨
  (s.accessToken ≠ none ∧ s.refreshToken ≠ none)

/-! ## AddClusterModal (`src/frontend/src/features/clusters/AddClusterModal.tsx`) -/

/-- `ClusterCreate` of the frontend API client (`src/unnamed/part_002`). -/
structure ClusterCreate where
  name : String
  kubeconfig : String
  context : String
  description : Option String
  tags : Option (List String)
deriving DecidableEq, Repr

/-- `ClusterUpdate` of the frontend API client (`src/unnamed/part_002`). -/
structure ClusterUpdate where
  name : Option String
  description : Option String
  kubeconfig : Option String
  context : Option String
  tags : Option (List String)
deriving DecidableEq, Repr

/-- A JavaScript whitespace character (the ASCII subset relevant to the
kubeconfig form inputs). -/
def isWsChar (c : Char) : Bool := c = ' ' ∨ c = '\t' ∨ c = '\n' ∨ c = '\r'

/-- JavaScript `String.prototype.trim`: strips whitespace from both ends. -/
def jsTrim (s : String) : String :=
  ⟨((s.data.dropWhile isWsChar).reverse.dropWhile isWsChar).reverse⟩

/-- Outcome of `handleSubmit`: either a validation error shown in the
modal (no request dispatched), or the request payload dispatched via
`createCluster` / `updateCluster`. -/
inductive SubmitOutcome where
  | validationError (msg : String)
  | createReq (req : ClusterCreate)
  | updateReq (id : String) (data : ClusterUpdate)
deriving DecidableEq, Repr

/-- The validation and payload construction of `handleSubmit` in
`AddClusterModal.tsx`. `editing` is the optional `cluster` prop (edit
mode); the kubeconfig emptiness check is skipped in edit mode, exactly as
in `if (!cluster && !kubeconfig.trim())`. -/
def handleSubmit (editing : Option Cluster)
    (name description kubeconfig ctx tags : String) : SubmitOutcome :=
  if (jsTrim name).isEmpty then .validationError "Cluster name is required"
  else if editing.isNone ∧ (jsTrim kubeconfig).isEmpty then
    .validationError "Kubeconfig is required"
  else if (jsTrim ctx).isEmpty then .validationError "Context is required"
  else
    let tagArray := ((tags.splitOn ",").map jsTrim).filter (fun t => ¬ (t = ""))
    match editing with
    | some c =>
      .updateReq c.id
        { name := some (jsTrim name),
          description := if jsTrim description = "" then none else some (jsTrim description),
          kubeconfig := if jsTrim kubeconfig = "" then none else some (jsTrim kubeconfig),
          context := some (jsTrim ctx),
          tags := if tagArray = [] then none else some tagArray }
    | none =>
      .createReq
        { name := jsTrim name,
          kubeconfig := jsTrim kubeconfig,
          context := jsTrim ctx,
          description := if jsTrim description = "" then none else some (jsTrim description),
          tags := if tagArray = [] then none else some tagArray }

/-! ## Backend Cluster Registry, spec-modelled

The backend auth + cluster modules are not among the frontend sources;
the definitions below are modelled from the specification (§4.2–4.3) and
are marked as such. -/

/-- Modelled from the spec: a persisted Cluster row of the Credential
Vault (spec §3, §6): surrogate id, owner, name, context, `is_active`.
The encrypted kubeconfig column plays no role in the activation
lifecycle and is omitted here. -/
structure RegCluster where
  id : Nat
  owner_id : String
  name : String
  context : String
  is_active : Bool
deriving DecidableEq, Repr

/-- Modelled from the spec: the Registry's persistent state — the next
surrogate id, the Cluster table, and the ids holding cached connection
handles (Connection Cache, modelled only as the set of keyed handles). -/
structure RegState where
  nextId : Nat
  clusters : List RegCluster
  cache : List Nat
deriving DecidableEq, Repr

/-- Error taxonomy of the registry operations (spec §7). -/
inductive RegError where
  | notFound
  | invalidCredential
  | emptyField
deriving DecidableEq, Repr

/-- Empty registry state. -/
def regInitial : RegState := { nextId := 0, clusters := [], cache := [] }

/-- Modelled from the spec: `Create(ownerId, name, kubeconfig, context)`
(spec §4.3): rejects empty name/kubeconfig/context, validates the
kubeconfig/context pair through the connection capability `connectOk`
before persisting, returns `InvalidCredential` without persisting on
validation failure, and otherwise appends a new row with
`is_active = false` (spec §8 Scenario A) and caches its handle. -/
def regCreate (connectOk : String → String → Bool) (rs : RegState)
    (o nm kc ctx : String) : Except RegError RegCluster × RegState :=
  if nm = "" ∨ kc = "" ∨ ctx = "" then (.error .emptyField, rs)
  else if connectOk kc ctx = false then (.error .invalidCredential, rs)
  else
    let c : RegCluster :=
      { id := rs.nextId, owner_id := o, name := nm, context := ctx, is_active := false }
    (.ok c,
     { nextId := rs.nextId + 1,
       clusters := rs.clusters ++ [c],
       cache := rs.cache ++ [rs.nextId] })

/-- Modelled from the spec: `Activate(ownerId, id)` via the Vault's
atomic `SetActive` (spec §4.2–4.3): `NotFound` if the cluster is absent
or not owned; otherwise clears `is_active` on every other cluster of the
owner and sets it on `id` as one update. -/
def regActivate (rs : RegState) (o : String) (id : Nat) :
    Except RegError RegCluster × RegState :=
  match rs.clusters.find? (fun c => c.id == id && c.owner_id == o) with
  | none => (.error .notFound, rs)
  | some c =>
    (.ok { c with is_active := true },
     { rs with
       clusters := rs.clusters.map (fun q =>
         if q.owner_id = o then { q with is_active := q.id == id } else q) })

/-- Modelled from the spec: `Delete(ownerId, id)` (spec §4.3): evicts the
connection handle and removes the record; if the deleted cluster was
active no other cluster is promoted. -/
def regDelete (rs : RegState) (o : String) (id : Nat) :
    Except RegError Unit × RegState :=
  match rs.clusters.find? (fun c => c.id == id && c.owner_id == o) with
  | none => (.error .notFound, rs)
  | some _ =>
    (.ok (),
     { rs with
       clusters := rs.clusters.filter (fun c => ¬ (c.id = id ∧ c.owner_id = o)),
       cache := rs.cache.filter (fun j => ¬ (j = id)) })

/-- A registry operation of the C1 sequence. -/
inductive RegOp where
  | create (o nm kc ctx : String)
  | activate (o : String) (id : Nat)
  | delete (o : String) (id : Nat)
deriving DecidableEq, Repr

/-- Apply one registry operation, keeping only the state. -/
def regStep (connectOk : String → String → Bool) (rs : RegState) : RegOp → RegState
  | .create o nm kc ctx => (regCreate connectOk rs o nm kc ctx).2
  | .activate o id => (regActivate rs o id).2
  | .delete o id => (regDelete rs o id).2

/-- Run a sequence of registry operations from the empty registry. -/
def regRun (connectOk : String → String → Bool) (ops : List RegOp) : RegState :=
  ops.foldl (regStep connectOk) regInitial

/-- Number of clusters owned by `o` with `is_active = true`. -/
def countActiveOwned (o : String) (cs : List RegCluster) : Nat :=
  (cs.filter (fun c => c.owner_id = o ∧ c.is_active)).length

/-! ## Token Service, spec-modelled -/

/-- Modelled from the spec: the per-record state machine of a refresh
token (spec §4.5): `issued -> (verified)* -> rotated -> retired`, with
`revoked` reachable from any non-retired state. -/
inductive TokState where
  | issued
  | rotated
  | retired
  | revoked
deriving DecidableEq, Repr

/-- Modelled from the spec: a Session / Refresh-Token record (spec §3):
opaque token identifier, owning user, session family, and state. -/
structure TokRecord where
  tokenId : String
  userId : String
  familyId : String
  state : TokState
deriving DecidableEq, Repr

/-- Outcome of `Redeem` (spec §4.5). -/
inductive RedeemOutcome where
  | ok (accessToken refreshToken : String)
  | expired
  | alreadyUsed
  | revokedTok
  | invalid
deriving DecidableEq, Repr

/-- Modelled from the spec: chain revocation — every record of the
session family is marked `revoked` (spec §4.5). -/
def revokeFamily (fam : String) (db : List TokRecord) : List TokRecord :=
  db.map (fun r => if r.familyId = fam then { r with state := .revoked } else r)

/-- Modelled from the spec: `Redeem(refreshToken)` of the Token Service
(spec §4.5, §8), which is not among the frontend sources. A valid
(`issued`) record is atomically marked `rotated` and a fresh pair is
issued into the same family; redeeming a record already `rotated` or
`retired` is the replay signal — it revokes the entire family and
returns `AlreadyUsed` (spec §8); redeeming a `revoked` record revokes
the family and returns `Revoked`. -/
def redeem (db : List TokRecord) (tok newAccess newRefresh : String) :
    RedeemOutcome × List TokRecord :=
  match db.find? (fun r => r.tokenId == tok) with
  | none => (.invalid, db)
  | some r =>
    match r.state with
    | .issued =>
      let marked := db.map (fun q =>
        if q.tokenId = tok then { q with state := TokState.rotated } else q)
      (.ok newAccess newRefresh,
       { tokenId := newRefresh, userId := r.userId, familyId := r.familyId,
         state := .issued } :: marked)
    | .rotated => (.alreadyUsed, revokeFamily r.familyId db)
    | .retired => (.alreadyUsed, revokeFamily r.familyId db)
    | .revoked => (.revokedTok, revokeFamily r.familyId db)

/-! ## Secret Cipher, spec-modelled -/

/-- `Decrypt` failure (spec §4.1, §7): corrupted or key-mismatched
ciphertext. -/
inductive DecryptError where
  | corrupted
deriving DecidableEq, Repr

/-- Modelled from the spec: a ciphertext of the Secret Cipher — the
encrypted payload plus an authentication tag (spec §3: "ciphertext +
nonce/IV"), so the valid ciphertexts are sparse and tampering with
either component is detectable. -/
structure Ciphertext where
  body : List Nat
  tag : List Nat
deriving DecidableEq, Repr

/-- Modelled from the spec: the keyed authentication tag over the
plaintext — injective in the plaintext for every key, so a tag can
vouch for exactly one plaintext. -/
def macTag (k : Nat) (x : List Nat) : List Nat :=
  x.map (fun b => 2 * b + k + 1)

/-- Modelled from the spec: `Encrypt(plaintext) -> ciphertext` of the
Secret Cipher (spec §4.1), which is not among the frontend sources. An
idealized deterministic authenticated cipher over byte lists under the
process-wide key `k`: the payload is keyed-shifted and tagged with
`macTag`, faithful to the contract of a tamper-evident cipher, not to a
concrete AEAD algorithm. -/
def Encrypt (k : Nat) (x : List Nat) : Ciphertext :=
  { body := x.map (fun b => b + k), tag := macTag k x }

/-- Modelled from the spec: `Decrypt(ciphertext) -> plaintext |
DecryptError` (spec §4.1): recovers the plaintext of a genuine
encryption under `k` and fails with `DecryptError` on every other
ciphertext, in particular whenever the payload or the tag of a genuine
ciphertext has been modified. -/
def Decrypt (k : Nat) (c : Ciphertext) : Except DecryptError (List Nat) :=
  let x := c.body.map (fun b => b - k)
  if c = Encrypt k x then .ok x else .error .corrupted

/-! ## Concrete sample data used by witnesses and counterexamples -/

/-- A concrete cluster record with the given id and activity flag. -/
def sampleCluster (id : String) (active : Bool) : Cluster :=
  { id := id, name := id, description := none, context := "ctx",
    is_active := active, is_connected := true, version := some "1.29",
    node_count := 3, pod_count := 10, tags := [], owner_id := "u1",
    created_at := "t0", updated_at := "t0", last_connected_at := some "t0" }

/-- A store state holding one connected, active cluster `c1`. -/
def c3State : ClusterState :=
  { clusters := [sampleCluster "c1" true],
    activeCluster := some (sampleCluster "c1" true),
    loading := false, error := none }

/-- A failed connectivity-test result carrying no version. -/
def c3FailedResult : ConnectionTestResult :=
  { connected := false, version := none, error := some "timeout" }

/-- An auth state with no user and no tokens. -/
def sampleAuthState : AuthState :=
  { user := none, accessToken := none, refreshToken := none,
    isLoading := false, error := none }

/-- A store state with active `prod` and inactive `staging`. -/
def c4State : ClusterState :=
  { clusters := [sampleCluster "prod" true, sampleCluster "staging" false],
    activeCluster := some (sampleCluster "prod" true),
    loading := false, error := none }

/-- A registry row: `prod`, id 0, owned by `u1`, active. -/
def regProd : RegCluster :=
  { id := 0, owner_id := "u1", name := "prod", context := "ctx", is_active := true }

/-- A registry row: `staging`, id 1, owned by `u1`, inactive. -/
def regStaging : RegCluster :=
  { id := 1, owner_id := "u1", name := "staging", context := "ctx", is_active := false }

/-- A registry state holding `prod` (active) and `staging`, both with
cached handles. -/
def c4Reg : RegState :=
  { nextId := 2, clusters := [regProd, regStaging], cache := [0, 1] }

/-- A concrete C1 action sequence: create and activate `prod`, create
and activate `staging`, delete `prod`. -/
def c1Actions : List ClusterAction :=
  [ .createF (sampleCluster "prod" false),
    .activateF (sampleCluster "prod" true),
    .createF (sampleCluster "staging" false),
    .activateF (sampleCluster "staging" true),
    .deleteF "prod" ]

/-- A one-record refresh-token table: `t1`, user `u1`, family `f1`,
freshly issued. -/
def c2Db : List TokRecord :=
  [{ tokenId := "t1", userId := "u1", familyId := "f1", state := .issued }]

/-- The inductive invariant of the spec-modelled registry: ids are below
the id counter, ids are duplicate-free, and every owner has at most one
active cluster. -/
def RegInv (rs : RegState) : Prop :=
  (∀ c ∈ rs.clusters, c.id < rs.nextId) ∧
  (rs.clusters.map (fun c => c.id)).Nodup ∧
  (∀ o, countActiveOwned o rs.clusters ≤ 1)

/-! ## Generic list lemmas -/

/-- Filtering by a stronger predicate yields at most as many elements. -/
theorem length_filter_mono {α : Type} (p q : α → Bool)
    (h : ∀ a, p a = true → q a = true) (l : List α) :
    (l.filter p).length ≤ (l.filter q).length := by
  induction l with
  | nil => simp
  | cons a l ih =>
    by_cases hp : p a = true
    · have hq := h a hp
      simp [List.filter_cons, hp, hq]
      exact ih
    · simp [List.filter_cons, hp]
      by_cases hq : q a = true
      · simp [hq]
        exact Nat.le_succ_of_le ih
      · simp [hq]
        exact ih

/-- Filtering a filtered list yields at most as many `p`-elements as the
original list. -/
theorem length_filter_filter_le {α : Type} (p q : α → Bool) (l : List α) :
    ((l.filter q).filter p).length ≤ (l.filter p).length :=
  ((List.filter_sublist l).filter p).length_le

/-! ## Lemmas on the cluster-slice reducers -/

/-- After the `forEach` clearing loop, no stored cluster is active. -/
theorem countActive_map_clearActive (l : List Cluster) :
    countActive (l.map clearActive) = 0 := by
  induction l with
  | nil => rfl
  | cons a l _ih =>
    simp only [List.map_cons]
    simp [countActive, clearActive, List.filter_cons]

/-- A list whose members are all inactive has `countActive = 0`. -/
theorem countActive_eq_zero_of_all_inactive (l : List Cluster)
    (h : ∀ c ∈ l, c.is_active = false) : countActive l = 0 := by
  induction l with
  | nil => rfl
  | cons a l ih =>
    have ha := h a (List.mem_cons_self a l)
    simpa [countActive, List.filter_cons, ha] using
      ih (fun c hc => h c (List.mem_cons_of_mem a hc))

/-- Appending an inactive cluster does not change the active count. -/
theorem countActive_append_inactive (l : List Cluster) (p : Cluster)
    (hp : p.is_active = false) : countActive (l ++ [p]) = countActive l := by
  simp [countActive, List.filter_append, List.filter_cons, hp]

/-- Removing clusters cannot raise the active count. -/
theorem countActive_filter_le (q : Cluster → Bool) (l : List Cluster) :
    countActive (l.filter q) ≤ countActive l :=
  length_filter_filter_le _ q l

/-- Every member of the map-cleared list is inactive. -/
theorem mem_map_clearActive_inactive (l : List Cluster) :
    ∀ c ∈ l.map clearActive, c.is_active = false := by
  intro c hc
  rcases List.mem_map.mp hc with ⟨c0, _, rfl⟩
  rfl

/-- `setFirstById` misses when no stored id matches the payload's. -/
theorem setFirstById_eq_none (p : Cluster) (l : List Cluster)
    (h : ∀ c ∈ l, ¬ (c.id = p.id)) : setFirstById p l = none := by
  induction l with
  | nil => rfl
  | cons a l ih =>
    have ha := h a (List.mem_cons_self a l)
    simp [setFirstById, ha, ih (fun c hc => h c (List.mem_cons_of_mem a hc))]

/-- `setFirstById` hits when some stored id matches the payload's. -/
theorem setFirstById_isSome (p : Cluster) (l : List Cluster)
    (h : ∃ c ∈ l, c.id = p.id) : ∃ l', setFirstById p l = some l' := by
  induction l with
  | nil => simp at h
  | cons a l ih =>
    by_cases ha : a.id = p.id
    · exact ⟨p :: l, by simp [setFirstById, ha]⟩
    · have h' : ∃ c ∈ l, c.id = p.id := by
        rcases h with ⟨c, hc, hcid⟩
        rcases List.mem_cons.mp hc with rfl | hcl
        · exact absurd hcid ha
        · exact ⟨c, hcl, hcid⟩
      rcases ih h' with ⟨l', hl'⟩
      exact ⟨a :: l', by simp [setFirstById, ha, hl']⟩

/-- Members of a `setFirstById` result are the payload or old members. -/
theorem mem_of_setFirstById (p : Cluster) :
    ∀ (l l' : List Cluster), setFirstById p l = some l' →
      ∀ c ∈ l', c = p ∨ c ∈ l := by
  intro l
  induction l with
  | nil => intro l' h; simp [setFirstById] at h
  | cons a l ih =>
    intro l' h c hc
    by_cases ha : a.id = p.id
    · simp [setFirstById, ha] at h
      subst h
      rcases List.mem_cons.mp hc with rfl | hcl
      · exact Or.inl rfl
      · exact Or.inr (List.mem_cons_of_mem a hcl)
    · cases hrec : setFirstById p l with
      | none => simp [setFirstById, ha, hrec] at h
      | some l₀ =>
        simp [setFirstById, ha, hrec] at h
        subst h
        rcases List.mem_cons.mp hc with rfl | hcl
        · exact Or.inr (List.mem_cons_self c l)
        · rcases ih l₀ hrec c hcl with h₁ | h₂
          · exact Or.inl h₁
          · exact Or.inr (List.mem_cons_of_mem a h₂)

/-- The payload is a member of a `setFirstById` result. -/
theorem self_mem_setFirstById (p : Cluster) :
    ∀ (l l' : List Cluster), setFirstById p l = some l' → p ∈ l' := by
  intro l
  induction l with
  | nil => intro l' h; simp [setFirstById] at h
  | cons a l ih =>
    intro l' h
    by_cases ha : a.id = p.id
    · simp [setFirstById, ha] at h
      subst h
      exact List.mem_cons_self p l
    · cases hrec : setFirstById p l with
      | none => simp [setFirstById, ha, hrec] at h
      | some l₀ =>
        simp [setFirstById, ha, hrec] at h
        subst h
        exact List.mem_cons_of_mem a (ih l₀ hrec)

/-- Replacing one element of an all-inactive list leaves at most one
active cluster. -/
theorem countActive_setFirstById_le (p : Cluster) :
    ∀ (l l' : List Cluster), setFirstById p l = some l' →
      (∀ c ∈ l, c.is_active = false) → countActive l' ≤ 1 := by
  intro l
  induction l with
  | nil => intro l' h; simp [setFirstById] at h
  | cons a l ih =>
    intro l' h hall
    by_cases ha : a.id = p.id
    · simp [setFirstById, ha] at h
      subst h
      have hz : countActive l = 0 :=
        countActive_eq_zero_of_all_inactive l
          (fun c hc => hall c (List.mem_cons_of_mem a hc))
      by_cases hp : p.is_active = true
      · simp [countActive, List.filter_cons, hp]
        simpa [countActive] using Nat.le_of_eq hz
      · simp [countActive, List.filter_cons, hp]
        calc (l.filter fun c => c.is_active).length = countActive l := rfl
          _ ≤ 1 := by omega
    · cases hrec : setFirstById p l with
      | none => simp [setFirstById, ha, hrec] at h
      | some l₀ =>
        simp [setFirstById, ha, hrec] at h
        subst h
        have hha := hall a (List.mem_cons_self a l)
        have := ih l₀ hrec (fun c hc => hall c (List.mem_cons_of_mem a hc))
        simpa [countActive, List.filter_cons, hha] using this

/-- `updateFirstBy` preserves any projection that `f` preserves. -/
theorem updateFirstBy_map_proj {β : Type} (g : Cluster → β) (p : Cluster → Bool)
    (f : Cluster → Cluster) (hf : ∀ c, g (f c) = g c) (l : List Cluster) :
    (updateFirstBy p f l).map g = l.map g := by
  induction l with
  | nil => rfl
  | cons a l ih =>
    by_cases ha : p a = true
    · simp [updateFirstBy, ha, hf a]
    · simp [updateFirstBy, ha, ih]

/-- Members of an `updateFirstBy` result are old members or images. -/
theorem mem_updateFirstBy (p : Cluster → Bool) (f : Cluster → Cluster)
    (l : List Cluster) :
    ∀ c ∈ updateFirstBy p f l, c ∈ l ∨ ∃ c0 ∈ l, c = f c0 := by
  induction l with
  | nil => intro c hc; simp [updateFirstBy] at hc
  | cons a l ih =>
    intro c hc
    by_cases ha : p a = true
    · simp only [updateFirstBy, ha, if_pos] at hc
      rcases List.mem_cons.mp hc with rfl | hcl
      · exact Or.inr ⟨a, List.mem_cons_self a l, rfl⟩
      · exact Or.inl (List.mem_cons_of_mem a hcl)
    · simp only [updateFirstBy, ha, if_neg, Bool.not_eq_true] at hc
      rcases List.mem_cons.mp hc with rfl | hcl
      · exact Or.inl (List.mem_cons_self c l)
      · rcases ih c hcl with h₁ | ⟨c0, hc0, rfl⟩
        · exact Or.inl (List.mem_cons_of_mem a h₁)
        · exact Or.inr ⟨c0, List.mem_cons_of_mem a hc0, rfl⟩

/-! ## Lemmas on the spec-modelled registry -/

/-- With no duplicate ids, at most one row matches a given id. -/
theorem length_filter_id_le_one (i : Nat) (l : List RegCluster)
    (h : (l.map (fun c => c.id)).Nodup) :
    (l.filter (fun c => c.id = i)).length ≤ 1 := by
  induction l with
  | nil => simp
  | cons a l ih =>
    simp only [List.map_cons, List.nodup_cons] at h
    by_cases ha : a.id = i
    · have hnone : l.filter (fun c => c.id = i) = [] := by
        rw [List.filter_eq_nil_iff]
        intro c hc
        simp only [decide_eq_true_eq]
        intro hci
        exact h.1 (by
          have : c.id ∈ l.map (fun c => c.id) := List.mem_map_of_mem _ hc
          rwa [hci, ← ha] at this)
      simp [List.filter_cons, ha, hnone]
    · simp only [List.filter_cons, ha]
      simpa using ih h.2

/-- For owners other than the activated one, the `SetActive` sweep does
not change the active count. -/
theorem countActiveOwned_activate_other (o o' : String) (i : Nat)
    (l : List RegCluster) (hne : o' ≠ o) :
    countActiveOwned o'
      (l.map (fun q => if q.owner_id = o then { q with is_active := q.id == i } else q))
      = countActiveOwned o' l := by
  unfold countActiveOwned
  rw [← List.countP_eq_length_filter, ← List.countP_eq_length_filter, List.countP_map]
  apply List.countP_congr
  intro a _
  by_cases ha : a.owner_id = o
  · have ha' : ¬ (o = o') := fun hh => hne hh.symm
    simp [Function.comp, ha, ha']
  · simp [Function.comp, ha]

/-- For the activated owner, the rows active after the `SetActive` sweep
are exactly the owner's rows carrying the activated id. -/
theorem countActiveOwned_activate_self (o : String) (i : Nat)
    (l : List RegCluster) :
    countActiveOwned o
      (l.map (fun q => if q.owner_id = o then { q with is_active := q.id == i } else q))
      = (l.filter (fun c => c.owner_id = o ∧ c.id = i)).length := by
  unfold countActiveOwned
  rw [← List.countP_eq_length_filter, ← List.countP_eq_length_filter, List.countP_map]
  apply List.countP_congr
  intro a _
  by_cases ha : a.owner_id = o
  · by_cases hai : a.id = i
    · simp [Function.comp, ha, hai]
    · simp [Function.comp, ha, hai]
  · simp [Function.comp, ha]

/-- Removing rows cannot raise an owner's active count. -/
theorem countActiveOwned_filter_le (o : String) (q : RegCluster → Bool)
    (l : List RegCluster) :
    countActiveOwned o (l.filter q) ≤ countActiveOwned o l :=
  length_filter_filter_le _ q l

/-- Appending an inactive row does not change any owner's active count. -/
theorem countActiveOwned_append_inactive (o : String) (l : List RegCluster)
    (c : RegCluster) (hc : c.is_active = false) :
    countActiveOwned o (l ++ [c]) = countActiveOwned o l := by
  simp [countActiveOwned, List.filter_append, List.filter_cons, hc]

/-! ## Lemmas on the spec-modelled Token Service -/

/-- The rotation mark of `redeem` commutes with `find?` on the token id. -/
theorem find_map_markRotated (db : List TokRecord) (tok : String) (r : TokRecord)
    (h : db.find? (fun q => q.tokenId == tok) = some r) :
    (db.map (fun q => if q.tokenId = tok then { q with state := TokState.rotated } else q)).find?
        (fun q => q.tokenId == tok)
      = some { r with state := TokState.rotated } := by
  induction db with
  | nil => simp at h
  | cons a db ih =>
    by_cases ha : a.tokenId = tok
    · rw [List.find?_cons_of_pos _ (by simp [ha])] at h
      cases h
      simp only [List.map_cons, if_pos ha]
      exact List.find?_cons_of_pos _ (by simp [ha])
    · rw [List.find?_cons_of_neg _ (by simp [ha])] at h
      simp only [List.map_cons, if_neg ha]
      rw [List.find?_cons_of_neg _ (by simp [ha])]
      exact ih h

/-- After `revokeFamily`, every record of the family is revoked. -/
theorem revokeFamily_revokes (fam : String) (db : List TokRecord) :
    ∀ q ∈ revokeFamily fam db, q.familyId = fam → q.state = TokState.revoked := by
  intro q hq
  rcases List.mem_map.mp hq with ⟨q0, _, rfl⟩
  by_cases h0 : q0.familyId = fam
  · intro _; simp [h0]
  · simp only [if_neg h0]
    intro hcontra
    exact absurd hcontra h0

/-! ## Lemmas on the spec-modelled Secret Cipher -/

/-- The keyed tag vouches for exactly one plaintext. -/
theorem macTag_injective (k : Nat) :
    ∀ x y, macTag k x = macTag k y → x = y := by
  intro x y h
  have hinj : Function.Injective (fun b : Nat => 2 * b + k + 1) := by
    intro a b hab
    simp only at hab
    omega
  exact List.map_injective_iff.mpr hinj h

/-- Keyed-shift decoding inverts keyed-shift encoding. -/
theorem decode_encode (k : Nat) (x : List Nat) :
    (x.map (fun b => b + k)).map (fun b => b - k) = x := by
  induction x with
  | nil => rfl
  | cons a t ih => simp [Nat.add_sub_cancel, ih]

/-! ## Claim theorems -/

/-- C8: for every kubeconfig text `x`, `Decrypt(Encrypt(x)) = x`; any
ciphertext `Decrypt` accepts is the genuine encryption of exactly the
returned plaintext; and tampering with a genuine ciphertext — replacing
its payload while keeping its tag, or replacing its tag while keeping
its payload — always yields `DecryptError`, never a corrupted
plaintext. -/
theorem c8_cipher_roundtrip_and_integrity :
    ∀ (k : Nat) (x : List Nat),
      Decrypt k (Encrypt k x) = Except.ok x ∧
      (∀ c y, Decrypt k c = Except.ok y → c = Encrypt k y) ∧
      (∀ body2, ¬ (body2 = (Encrypt k x).body) →
          Decrypt k { body := body2, tag := (Encrypt k x).tag }
            = Except.error DecryptError.corrupted) ∧
      (∀ tag2, ¬ (tag2 = (Encrypt k x).tag) →
          Decrypt k { body := (Encrypt k x).body, tag := tag2 }
            = Except.error DecryptError.corrupted) := by
  intro k x
  refine ⟨?_, ?_, ?_, ?_⟩
  · have hdec : List.map ((fun b => b - k) ∘ fun b => b + k) x = x := by
      rw [← List.map_map]
      exact decode_encode k x
    simp [Decrypt, Encrypt, hdec]
  · intro c y h
    simp only [Decrypt] at h
    split at h
    · rename_i hcond
      cases h
      exact hcond
    · cases h
  · intro body2 hb
    simp only [Decrypt]
    split
    · rename_i hcond
      exfalso
      have htag : (Encrypt k x).tag = macTag k (body2.map (fun b => b - k)) := by
        simpa [Encrypt] using congrArg Ciphertext.tag hcond
      have hx : x = body2.map (fun b => b - k) :=
        macTag_injective k x _ (by simpa [Encrypt] using htag)
      have hbody : body2 = (Encrypt k x).body := by
        calc body2 = (body2.map (fun b => b - k)).map (fun b => b + k) := by
              simpa [Encrypt] using congrArg Ciphertext.body hcond
          _ = x.map (fun b => b + k) := by rw [← hx]
          _ = (Encrypt k x).body := rfl
      exact hb hbody
    · rfl
  · intro tag2 ht
    simp only [Decrypt]
    split
    · rename_i hcond
      exfalso
      have hdec : (Encrypt k x).body.map (fun b => b - k) = x := by
        simpa [Encrypt] using decode_encode k x
      rw [hdec] at hcond
      exact ht (congrArg Ciphertext.tag hcond)
    · rfl

/-- Witness for C8: a concrete round-trip, a concrete payload tampering
rejected with `DecryptError`, and a concrete tag tampering rejected with
`DecryptError`. -/
theorem c8_witness :
    Decrypt 7 (Encrypt 7 [104, 105]) = Except.ok [104, 105] ∧
    Decrypt 7 { body := [112, 112], tag := (Encrypt 7 [104, 105]).tag }
      = Except.error DecryptError.corrupted ∧
    Decrypt 7 { body := (Encrypt 7 [104, 105]).body, tag := [0] }
      = Except.error DecryptError.corrupted :=
  ⟨(c8_cipher_roundtrip_and_integrity 7 [104, 105]).1,
   (c8_cipher_roundtrip_and_integrity 7 [104, 105]).2.2.1 [112, 112] (by decide),
   (c8_cipher_roundtrip_and_integrity 7 [104, 105]).2.2.2 [0] (by decide)⟩

/-- C7: in create mode, `handleSubmit` rejects a name, kubeconfig or
context that is empty after trimming: it produces a validation error and
never a create request. -/
theorem c7_create_rejects_empty :
    ∀ (name description kubeconfig ctx tags : String),
      ((jsTrim name).isEmpty ∨ (jsTrim kubeconfig).isEmpty ∨ (jsTrim ctx).isEmpty) →
      ∃ msg, handleSubmit none name description kubeconfig ctx tags =
        SubmitOutcome.validationError msg := by
  intro n d kc cx tg h
  by_cases h1 : (jsTrim n).isEmpty
  · exact ⟨"Cluster name is required", by simp [handleSubmit, h1]⟩
  · by_cases h2 : (jsTrim kc).isEmpty
    · exact ⟨"Kubeconfig is required", by simp [handleSubmit, h1, h2]⟩
    · have h3 : (jsTrim cx).isEmpty := by
        rcases h with h | h | h
        · exact absurd h h1
        · exact absurd h h2
        · exact h
      exact ⟨"Context is required", by simp [handleSubmit, h1, h2, h3]⟩

/-- Witness for C7: the empty name is rejected. -/
theorem c7_witness :
    ∃ msg, handleSubmit none "" "d" "kubeconfig-text" "ctx" "" =
      SubmitOutcome.validationError msg :=
  c7_create_rejects_empty "" "d" "kubeconfig-text" "ctx" "" (Or.inl (by decide))

/-- C9: an `activateCluster.fulfilled` action whose payload id matches no
stored cluster still deactivates every stored cluster and leaves
`state.activeCluster` at its previous value. -/
theorem c9_activate_unknown_id :
    ∀ (s : ClusterState) (p : Cluster),
      (∀ c ∈ s.clusters, ¬ (c.id = p.id)) →
      (∀ c ∈ (activateFulfilled s p).clusters, c.is_active = false) ∧
      (activateFulfilled s p).activeCluster = s.activeCluster := by
  intro s p h
  have hcl : ∀ c ∈ s.clusters.map clearActive, ¬ (c.id = p.id) := by
    intro c hc
    rcases List.mem_map.mp hc with ⟨c0, hc0, rfl⟩
    exact h c0 hc0
  have hnone := setFirstById_eq_none p _ hcl
  constructor
  · intro c hc
    simp only [activateFulfilled, hnone] at hc
    exact mem_map_clearActive_inactive _ c hc
  · simp [activateFulfilled, hnone]

/-- Witness for C9: activating an unknown id `c2` on a store holding
only `c1`. -/
theorem c9_witness :
    (∀ c ∈ (activateFulfilled c3State (sampleCluster "c2" true)).clusters,
        c.is_active = false) ∧
    (activateFulfilled c3State (sampleCluster "c2" true)).activeCluster =
      c3State.activeCluster :=
  c9_activate_unknown_id c3State (sampleCluster "c2" true) (by decide)

/-- C10: every token-touching reducer of the auth slice writes or clears
the access and refresh tokens as a pair, and every auth action preserves
the both-or-neither token pairing. -/
theorem c10_auth_tokens_paired :
    (∀ s a r, tokensPaired (setTokens s a r)) ∧
    (∀ s p, tokensPaired (loginFulfilled s p)) ∧
    (∀ s p, tokensPaired (registerFulfilled s p)) ∧
    (∀ s p, tokensPaired (refreshFulfilled s p)) ∧
    (∀ s, tokensPaired (fetchUserRejected s)) ∧
    (∀ s, tokensPaired (refreshRejected s)) ∧
    (∀ s, tokensPaired (logoutFulfilled s)) ∧
    (∀ s act, tokensPaired s → tokensPaired (applyAuthAction s act)) := by
  refine ⟨?_, ?_, ?_, ?_, ?_, ?_, ?_, ?_⟩
  · intro s a r; simp [tokensPaired, setTokens]
  · intro s p; simp [tokensPaired, loginFulfilled]
  · intro s p; simp [tokensPaired, registerFulfilled]
  · intro s p; simp [tokensPaired, refreshFulfilled]
  · intro s; simp [tokensPaired, fetchUserRejected]
  · intro s; simp [tokensPaired, refreshRejected]
  · intro s; simp [tokensPaired, logoutFulfilled]
  · intro s act h
    cases act with
    | setTokensA a r => simp [applyAuthAction, tokensPaired, setTokens]
    | clearErrorA => simpa [applyAuthAction, tokensPaired, clearAuthError] using h
    | loginP => simpa [applyAuthAction, tokensPaired, loginPending] using h
    | loginF p => simp [applyAuthAction, tokensPaired, loginFulfilled]
    | loginR m => simpa [applyAuthAction, tokensPaired, loginRejected] using h
    | registerP => simpa [applyAuthAction, tokensPaired, registerPending] using h
    | registerF p => simp [applyAuthAction, tokensPaired, registerFulfilled]
    | registerR m => simpa [applyAuthAction, tokensPaired, registerRejected] using h
    | fetchUserP => simpa [applyAuthAction, tokensPaired, fetchUserPending] using h
    | fetchUserF u => simpa [applyAuthAction, tokensPaired, fetchUserFulfilled] using h
    | fetchUserR => simp [applyAuthAction, tokensPaired, fetchUserRejected]
    | refreshF p => simp [applyAuthAction, tokensPaired, refreshFulfilled]
    | refreshR => simp [applyAuthAction, tokensPaired, refreshRejected]
    | logoutF => simp [applyAuthAction, tokensPaired, logoutFulfilled]

/-- Witness for C10: dispatching `login.pending` on the token-free state
keeps the tokens paired. -/
theorem c10_witness :
    tokensPaired (applyAuthAction sampleAuthState AuthAction.loginP) :=
  c10_auth_tokens_paired.2.2.2.2.2.2.2 sampleAuthState AuthAction.loginP
    (Or.inl ⟨rfl, rfl⟩)

/-- Counterexample to C3: on a failed attempt (`connected = false`, no
version) against the stored cluster `c1`, the `testConnection.fulfilled`
reducer overwrites the previously cached `is_connected = true` with
`false`, so a failed attempt does not leave every previously cached
value unchanged. -/
theorem c3_counterexample :
    c3FailedResult.connected = false ∧
    c3State.clusters.map (fun c => c.is_connected) = [true] ∧
    (testConnFulfilled c3State "c1" c3FailedResult).clusters.map
        (fun c => c.is_connected) = [false] := by
  refine ⟨rfl, rfl, ?_⟩
  rfl

/-- C3 (amended): `testConnection.fulfilled` never alters
`last_connected_at`, alters `version` only when the result carries a
version, and leaves the rest of the state unchanged; the only other
write is the attempt's own `connected` flag into `is_connected`. -/
theorem c3_test_connection_frame :
    ∀ (s : ClusterState) (id : String) (r : ConnectionTestResult),
      ((testConnFulfilled s id r).clusters.map (fun c => c.last_connected_at)
        = s.clusters.map (fun c => c.last_connected_at)) ∧
      (r.version = none →
        (testConnFulfilled s id r).clusters.map (fun c => c.version)
          = s.clusters.map (fun c => c.version)) ∧
      (testConnFulfilled s id r).activeCluster = s.activeCluster ∧
      (testConnFulfilled s id r).error = s.error ∧
      (testConnFulfilled s id r).loading = s.loading ∧
      (∀ c ∈ (testConnFulfilled s id r).clusters,
          c ∈ s.clusters ∨ c.is_connected = r.connected) := by
  intro s id r
  refine ⟨?_, ?_, rfl, rfl, rfl, ?_⟩
  · exact updateFirstBy_map_proj (fun c => c.last_connected_at)
      (fun c => c.id == id) (applyTestResult r) (fun c => rfl) s.clusters
  · intro hv
    refine updateFirstBy_map_proj (fun c => c.version)
      (fun c => c.id == id) (applyTestResult r) ?_ s.clusters
    intro c
    simp [applyTestResult, hv]
  · intro c hc
    simp only [testConnFulfilled] at hc
    rcases mem_updateFirstBy _ _ s.clusters c hc with h | ⟨c0, _, rfl⟩
    · exact Or.inl h
    · exact Or.inr rfl

/-- Witness for C3 (amended): the failed versionless attempt leaves the
cached versions untouched. -/
theorem c3_witness :
    (testConnFulfilled c3State "c1" c3FailedResult).clusters.map (fun c => c.version)
      = c3State.clusters.map (fun c => c.version) :=
  (c3_test_connection_frame c3State "c1" c3FailedResult).2.1 rfl

/-- C6: a create request whose kubeconfig/context pair fails connection
validation yields `InvalidCredential` and persists nothing — the
registry state is unchanged; in the frontend mirror,
`createCluster.rejected` likewise leaves the stored cluster list and the
active cluster unchanged. -/
theorem c6_create_invalid_credential :
    ∀ (connectOk : String → String → Bool) (rs : RegState) (o nm kc ctx : String),
      ¬ (nm = "") → ¬ (kc = "") → ¬ (ctx = "") →
      connectOk kc ctx = false →
      ((regCreate connectOk rs o nm kc ctx).1 = Except.error RegError.invalidCredential ∧
       (regCreate connectOk rs o nm kc ctx).2 = rs) ∧
      (∀ (s : ClusterState) (msg : String),
          (createRejected s msg).clusters = s.clusters ∧
          (createRejected s msg).activeCluster = s.activeCluster) := by
  intro connectOk rs o nm kc ctx hnm hkc hctx hconn
  refine ⟨?_, fun s msg => ⟨rfl, rfl⟩⟩
  have hempty : ¬ (nm = "" ∨ kc = "" ∨ ctx = "") := by
    intro h
    rcases h with h | h | h
    · exact hnm h
    · exact hkc h
    · exact hctx h
  constructor
  · simp [regCreate, hempty, hconn]
  · simp [regCreate, hempty, hconn]

/-- Witness for C6: a concrete rejected create against the registry
holding `prod` and `staging`. -/
theorem c6_witness :
    (regCreate (fun _ _ => false) c4Reg "u1" "dev" "kc-text" "ctx").1
      = Except.error RegError.invalidCredential ∧
    (regCreate (fun _ _ => false) c4Reg "u1" "dev" "kc-text" "ctx").2 = c4Reg := by
  have h := c6_create_invalid_credential (fun _ _ => false) c4Reg "u1" "dev" "kc-text" "ctx"
    (by decide) (by decide) (by decide) rfl
  exact h.1

/-- C4: activating a stored cluster B (payload active, id present) puts
B in the store as the unique active cluster and records it as
`activeCluster`; in the spec-modelled registry, `Activate` on an owned
cluster makes exactly the rows of that owner with the activated id
active, leaving other owners' rows untouched. -/
theorem c4_activate_switches_active :
    ∀ (s : ClusterState) (p : Cluster),
      p.is_active = true →
      (∃ c ∈ s.clusters, c.id = p.id) →
      (p ∈ (activateFulfilled s p).clusters ∧
       (activateFulfilled s p).activeCluster = some p ∧
       (∀ c ∈ (activateFulfilled s p).clusters, c.is_active = true → c = p)) ∧
      (∀ (rs : RegState) (o : String) (i : Nat) (c : RegCluster),
          rs.clusters.find? (fun q => q.id == i && q.owner_id == o) = some c →
          (regActivate rs o i).1 = Except.ok { c with is_active := true } ∧
          (∀ q ∈ (regActivate rs o i).2.clusters,
              q.owner_id = o → (q.is_active = true ↔ q.id = i)) ∧
          (∀ q ∈ (regActivate rs o i).2.clusters,
              ¬ (q.owner_id = o) → q ∈ rs.clusters)) := by
  intro s p hp hex
  constructor
  · have hex' : ∃ c ∈ s.clusters.map clearActive, c.id = p.id := by
      rcases hex with ⟨c, hc, hcid⟩
      exact ⟨clearActive c, List.mem_map_of_mem clearActive hc, hcid⟩
    obtain ⟨l', hl'⟩ := setFirstById_isSome p (s.clusters.map clearActive) hex'
    refine ⟨?_, ?_, ?_⟩
    · simp only [activateFulfilled, hl']
      exact self_mem_setFirstById p _ l' hl'
    · simp [activateFulfilled, hl']
    · intro c hc hcact
      simp only [activateFulfilled, hl'] at hc
      rcases mem_of_setFirstById p _ l' hl' c hc with rfl | hmem
      · rfl
      · have := mem_map_clearActive_inactive s.clusters c hmem
        rw [this] at hcact
        cases hcact
  · intro rs o i c hfind
    refine ⟨?_, ?_, ?_⟩
    · simp [regActivate, hfind]
    · intro q hq hqo
      simp only [regActivate, hfind] at hq
      rcases List.mem_map.mp hq with ⟨q0, _, rfl⟩
      by_cases h0 : q0.owner_id = o
      · simp [h0]
      · simp only [if_neg h0] at hqo
        exact absurd hqo h0
    · intro q hq hqo
      simp only [regActivate, hfind] at hq
      rcases List.mem_map.mp hq with ⟨q0, hq0, rfl⟩
      by_cases h0 : q0.owner_id = o
      · simp only [if_pos h0] at hqo
        exact absurd h0 hqo
      · simpa [if_neg h0] using hq0

/-- Witness for C4: activating `staging` on the prod-active store, and
registry `Activate` on row 1. -/
theorem c4_witness :
    (activateFulfilled c4State (sampleCluster "staging" true)).activeCluster
      = some (sampleCluster "staging" true) ∧
    (regActivate c4Reg "u1" 1).1 = Except.ok { regStaging with is_active := true } := by
  have h := c4_activate_switches_active c4State (sampleCluster "staging" true) rfl
    ⟨sampleCluster "staging" false, by decide, rfl⟩
  exact ⟨h.1.2.1, (h.2 c4Reg "u1" 1 regStaging (by decide)).1⟩

/-- C5: deleting the active cluster removes its record, deactivates the
owner entirely (no auto-promotion) and nulls the active slot; in the
spec-modelled registry, `Delete` removes the owned record, leaves the
owner with no active cluster when the deleted one was active, and evicts
the cached connection handle. -/
theorem c5_delete_active_no_promotion :
    ∀ (s : ClusterState) (id : String),
      (∀ c ∈ s.clusters, c.is_active = true → c.id = id) →
      (∀ a, s.activeCluster = some a → a.id = id) →
      ((∀ c ∈ (deleteFulfilled s id).clusters, ¬ (c.id = id)) ∧
       (∀ c ∈ (deleteFulfilled s id).clusters, c.is_active = false) ∧
       (deleteFulfilled s id).activeCluster = none) ∧
      (∀ (rs : RegState) (o : String) (i : Nat) (c : RegCluster),
          rs.clusters.find? (fun q => q.id == i && q.owner_id == o) = some c →
          (∀ q ∈ rs.clusters, q.owner_id = o → q.is_active = true → q.id = i) →
          ((∀ q ∈ (regDelete rs o i).2.clusters, ¬ (q.id = i ∧ q.owner_id = o)) ∧
           (∀ q ∈ (regDelete rs o i).2.clusters, q.owner_id = o → q.is_active = false) ∧
           i ∉ (regDelete rs o i).2.cache)) := by
  intro s id h1 h2
  constructor
  · refine ⟨?_, ?_, ?_⟩
    · intro c hc
      have := List.of_mem_filter hc
      simpa using this
    · intro c hc
      have hcm : c ∈ s.clusters := List.mem_of_mem_filter hc
      have hcid : ¬ (c.id = id) := by simpa using List.of_mem_filter hc
      by_cases hact : c.is_active = true
      · exact absurd (h1 c hcm hact) hcid
      · simpa using hact
    · simp only [deleteFulfilled]
      cases ha : s.activeCluster with
      | none => rfl
      | some a => simp [h2 a ha]
  · intro rs o i c hfind hown
    refine ⟨?_, ?_, ?_⟩
    · intro q hq
      simp only [regDelete, hfind] at hq
      have hnot := List.of_mem_filter hq
      intro hcon
      simp [hcon.1, hcon.2] at hnot
    · intro q hq hqo
      simp only [regDelete, hfind] at hq
      have hqm : q ∈ rs.clusters := List.mem_of_mem_filter hq
      have hraw := List.of_mem_filter hq
      have hqne : ¬ (q.id = i ∧ q.owner_id = o) := by
        intro hcon
        simp [hcon.1, hcon.2] at hraw
      by_cases hact : q.is_active = true
      · exact absurd ⟨hown q hqm hqo hact, hqo⟩ hqne
      · simpa using hact
    · intro hmem
      simp only [regDelete, hfind] at hmem
      have := List.of_mem_filter hmem
      simp at this

/-- Witness for C5: deleting active `c1` from the store, and registry
`Delete` of the active row 0 evicting its handle. -/
theorem c5_witness :
    (deleteFulfilled c3State "c1").activeCluster = none ∧
    0 ∉ (regDelete c4Reg "u1" 0).2.cache := by
  have h := c5_delete_active_no_promotion c3State "c1" (by decide)
    (fun a ha => by cases ha; rfl)
  exact ⟨h.1.2.2, (h.2 c4Reg "u1" 0 regProd (by decide) (by decide)).2.2⟩

/-- C2: a refresh token redeems successfully at most once — after a
successful redemption, redeeming the same token again returns
`AlreadyUsed` and revokes the entire token family of that session; in
the frontend, a rejected refresh clears both tokens and the user,
forcing full re-authentication. -/
theorem c2_refresh_replay_revokes_family :
    ∀ (db : List TokRecord) (tok na nr na2 nr2 : String) (r : TokRecord),
      db.find? (fun q => q.tokenId == tok) = some r →
      r.state = TokState.issued →
      ¬ (nr = tok) →
      (redeem db tok na nr).1 = RedeemOutcome.ok na nr ∧
      (redeem (redeem db tok na nr).2 tok na2 nr2).1 = RedeemOutcome.alreadyUsed ∧
      (∀ q ∈ (redeem (redeem db tok na nr).2 tok na2 nr2).2,
          q.familyId = r.familyId → q.state = TokState.revoked) ∧
      (∀ s : AuthState,
          (refreshRejected s).accessToken = none ∧
          (refreshRejected s).refreshToken = none ∧
          (refreshRejected s).user = none) := by
  intro db tok na nr na2 nr2 r hfind hst hne
  have h1 : redeem db tok na nr =
      (RedeemOutcome.ok na nr,
       { tokenId := nr, userId := r.userId, familyId := r.familyId,
         state := TokState.issued } ::
         db.map (fun q =>
           if q.tokenId = tok then { q with state := TokState.rotated } else q)) := by
    simp [redeem, hfind, hst]
  have hfind2 : ((redeem db tok na nr).2).find? (fun q => q.tokenId == tok)
      = some { r with state := TokState.rotated } := by
    rw [h1]
    rw [List.find?_cons_of_neg _ (by simp [hne])]
    exact find_map_markRotated db tok r hfind
  have h2 : redeem (redeem db tok na nr).2 tok na2 nr2 =
      (RedeemOutcome.alreadyUsed,
       revokeFamily r.familyId (redeem db tok na nr).2) := by
    generalize hdb1 : (redeem db tok na nr).2 = db1 at hfind2 ⊢
    simp [redeem, hfind2]
  refine ⟨by rw [h1], by rw [h2], ?_, fun s => ⟨rfl, rfl, rfl⟩⟩
  intro q hq hfam
  rw [h2] at hq
  exact revokeFamily_revokes r.familyId _ q hq hfam

/-- Witness for C2: redeeming `t1` twice on the one-record table — the
first redemption succeeds, the second returns `AlreadyUsed`. -/
theorem c2_witness :
    (redeem c2Db "t1" "a2" "t2").1 = RedeemOutcome.ok "a2" "t2" ∧
    (redeem (redeem c2Db "t1" "a2" "t2").2 "t1" "a3" "t3").1
      = RedeemOutcome.alreadyUsed := by
  have h := c2_refresh_replay_revokes_family c2Db "t1" "a2" "t2" "a3" "t3"
    { tokenId := "t1", userId := "u1", familyId := "f1", state := .issued }
    (by decide) rfl (by decide)
  exact ⟨h.1, h.2.1⟩

/-- One fulfilled cluster action preserves the at-most-one-active bound
when create payloads arrive inactive. -/
theorem countActive_step_le (s : ClusterState) (a : ClusterAction)
    (hinv : countActive s.clusters ≤ 1)
    (ha : createPayloadInactive a = true) :
    countActive (applyClusterAction s a).clusters ≤ 1 := by
  cases a with
  | createF p =>
    have hp : p.is_active = false := by
      simpa [createPayloadInactive] using ha
    simp only [applyClusterAction, createFulfilled]
    rw [countActive_append_inactive _ _ hp]
    exact hinv
  | activateF p =>
    simp only [applyClusterAction, activateFulfilled]
    cases hrec : setFirstById p (s.clusters.map clearActive) with
    | none =>
      simp only [hrec]
      rw [countActive_map_clearActive]
      exact Nat.zero_le 1
    | some l' =>
      simp only [hrec]
      exact countActive_setFirstById_le p _ l' hrec
        (mem_map_clearActive_inactive s.clusters)
  | deleteF id =>
    simp only [applyClusterAction, deleteFulfilled]
    exact le_trans (countActive_filter_le _ s.clusters) hinv

/-- A sequence of fulfilled cluster actions preserves the
at-most-one-active bound. -/
theorem countActive_run_le (as : List ClusterAction) :
    ∀ (s : ClusterState), countActive s.clusters ≤ 1 →
      (∀ a ∈ as, createPayloadInactive a = true) →
      countActive (applyClusterActions s as).clusters ≤ 1 := by
  induction as with
  | nil =>
    intro s h _
    exact h
  | cons a as ih =>
    intro s h hall
    exact ih (applyClusterAction s a)
      (countActive_step_le s a h (hall a (List.mem_cons_self a as)))
      (fun b hb => hall b (List.mem_cons_of_mem a hb))

/-- One registry operation preserves the registry invariant. -/
theorem regInv_step (connectOk : String → String → Bool) (rs : RegState)
    (op : RegOp) (h : RegInv rs) : RegInv (regStep connectOk rs op) := by
  obtain ⟨hid, hnd, hcnt⟩ := h
  cases op with
  | create o nm kc ctx =>
    simp only [regStep, regCreate]
    by_cases h1 : nm = "" ∨ kc = "" ∨ ctx = ""
    · simp only [if_pos h1]
      exact ⟨hid, hnd, hcnt⟩
    · simp only [if_neg h1]
      by_cases h2 : connectOk kc ctx = false
      · simp only [if_pos h2]
        exact ⟨hid, hnd, hcnt⟩
      · simp only [if_neg h2]
        refine ⟨?_, ?_, ?_⟩
        · intro c hc
          rcases List.mem_append.mp hc with hm | hm
          · exact Nat.lt_succ_of_lt (hid c hm)
          · have hce : c = { id := rs.nextId, owner_id := o, name := nm, context := ctx, is_active := false } := by
              simpa using hm
            rw [hce]
            exact Nat.lt_succ_self _
        · rw [List.map_append]
          refine List.Nodup.append hnd (by simp) ?_
          intro x hx
          rcases List.mem_map.mp hx with ⟨c, hc, rfl⟩
          simp only [List.map_cons, List.map_nil, List.mem_singleton]
          exact Nat.ne_of_lt (hid c hc)
        · intro o'
          rw [countActiveOwned_append_inactive o' _ _ rfl]
          exact hcnt o'
  | activate o i =>
    simp only [regStep, regActivate]
    cases hfind : rs.clusters.find? (fun c => c.id == i && c.owner_id == o) with
    | none =>
      simp only [hfind]
      exact ⟨hid, hnd, hcnt⟩
    | some c =>
      simp only [hfind]
      refine ⟨?_, ?_, ?_⟩
      · intro q hq
        rcases List.mem_map.mp hq with ⟨q0, hq0, rfl⟩
        by_cases h0 : q0.owner_id = o
        · simp only [if_pos h0]
          exact hid q0 hq0
        · simp only [if_neg h0]
          exact hid q0 hq0
      · rw [List.map_map]
        have hcong : rs.clusters.map
            ((fun c => c.id) ∘ fun q =>
              if q.owner_id = o then { q with is_active := q.id == i } else q)
            = rs.clusters.map (fun c => c.id) := by
          apply List.map_congr_left
          intro q _
          by_cases h0 : q.owner_id = o
          · simp [Function.comp, h0]
          · simp [Function.comp, h0]
        rw [hcong]
        exact hnd
      · intro o'
        by_cases ho : o' = o
        · subst ho
          rw [countActiveOwned_activate_self]
          refine le_trans (length_filter_mono _ (fun c => c.id = i) ?_ rs.clusters)
            (length_filter_id_le_one i rs.clusters hnd)
          intro a ha
          simp only [decide_eq_true_eq] at ha ⊢
          rcases (by simpa using ha : a.owner_id = o' ∧ a.id = i) with ⟨_, hai⟩
          simpa using hai
        · rw [countActiveOwned_activate_other o o' i rs.clusters ho]
          exact hcnt o'
  | delete o i =>
    simp only [regStep, regDelete]
    cases hfind : rs.clusters.find? (fun c => c.id == i && c.owner_id == o) with
    | none =>
      simp only [hfind]
      exact ⟨hid, hnd, hcnt⟩
    | some c =>
      simp only [hfind]
      refine ⟨?_, ?_, ?_⟩
      · intro q hq
        exact hid q (List.mem_of_mem_filter hq)
      · exact ((List.filter_sublist rs.clusters).map (fun c => c.id)).nodup hnd
      · intro o'
        exact le_trans (countActiveOwned_filter_le o' _ rs.clusters) (hcnt o')

/-- Every run of registry operations from the empty registry satisfies
the registry invariant. -/
theorem regInv_run (connectOk : String → String → Bool) (ops : List RegOp) :
    RegInv (regRun connectOk ops) := by
  suffices h : ∀ rs, RegInv rs → RegInv (ops.foldl (regStep connectOk) rs) by
    refine h regInitial ⟨?_, ?_, ?_⟩
    · intro c hc
      simp [regInitial] at hc
    · simp [regInitial]
    · intro o
      simp [regInitial, countActiveOwned]
  induction ops with
  | nil =>
    intro rs h
    exact h
  | cons op ops ih =>
    intro rs h
    exact ih (regStep connectOk rs op) (regInv_step connectOk rs op h)

/-- C1: after any sequence of `createCluster`/`activateCluster`/
`deleteCluster` fulfilled actions whose create payloads arrive inactive
(as the backend produces them), at most one stored cluster is active;
and in the spec-modelled registry, after any sequence of
`Create`/`Activate`/`Delete` operations, every owner has at most one
active cluster. -/
theorem c1_single_active_invariant :
    ∀ (as : List ClusterAction),
      (∀ a ∈ as, createPayloadInactive a = true) →
      countActive (applyClusterActions initialClusterState as).clusters ≤ 1 ∧
      (∀ (connectOk : String → String → Bool) (ops : List RegOp) (o : String),
          countActiveOwned o (regRun connectOk ops).clusters ≤ 1) := by
  intro as hall
  refine ⟨?_, ?_⟩
  · exact countActive_run_le as initialClusterState (Nat.zero_le 1) hall
  · intro connectOk ops o
    exact (regInv_run connectOk ops).2.2 o

/-- Witness for C1: a concrete create/activate/create/activate/delete
sequence leaves at most one active cluster in the store. -/
theorem c1_witness :
    countActive (applyClusterActions initialClusterState c1Actions).clusters ≤ 1 :=
  (c1_single_active_invariant c1Actions (by decide)).1

end XKube
